/-
  Verification of the soundboard client (src/public/app.js, src/public/sw.js).

  Shallow embedding: the playback session manager (`playSound`, `stopAll`,
  the loop/chaos button listeners, the `ended` listener), the volume and
  favorites persistence (`loadVolume`, `saveVolume`, `loadFavorites`, the
  volume slider input listener), the explicit preview-cache helpers
  (`isCached`, `cacheSoundPreview`), and the service-worker strategy router
  (`fetch` listener, `cacheFirst`).

  Host/runtime functions (JS `parseInt`, `String()`, `JSON.parse`,
  `localStorage`, `fetch`) are embedded either as executable Lean functions
  mirroring their documented semantics (`parseIntJs`, `intToString`) or as
  explicit parameters / outcome values (`parse`, `getRaw`, `NetResult`),
  quantified over in the theorems.
-/
import Mathlib

namespace Soundboard

/-! ### Generic association-list helpers (model of `Map`/`Cache` keyed access) -/

/-- Lookup by key in an association list (model of `Map.get` / `cache.match`). -/
def lookupKey {α : Type} (k : String) : List (String × α) → Option α
  | [] => none
  | (k', v) :: rest => if k' = k then some v else lookupKey k rest

/-- Remove every entry with the given key (model of `Map.delete` / stale-key removal). -/
def eraseKey {α : Type} (k : String) (m : List (String × α)) : List (String × α) :=
  m.filter (fun e => e.1 ≠ k)

/-- Number of entries stored under a key. -/
def countKey {α : Type} (k : String) (m : List (String × α)) : Nat :=
  (m.filter (fun e => e.1 = k)).length

/-! ### Audio sessions (app.js `HTMLAudioElement`s held in `state.playing`) -/

/-- Model of an `HTMLAudioElement` created by `new Audio(previewUrlFor(id))`.
`pauseThrows` models the host raising from `audio.pause()` /
`audio.currentTime = 0` (the `try`/`catch` in `stopAll` and `playSound`). -/
structure Audio where
  url : String
  loop : Bool
  paused : Bool
  currentTime : Nat
  pauseThrows : Bool
  deriving Repr, DecidableEq

/-- `new Audio(previewUrlFor(id))` with `audio.loop = state.loop` (app.js:333-334). -/
def newAudio (url : String) (loopFlag : Bool) : Audio :=
  { url := url, loop := loopFlag, paused := true, currentTime := 0, pauseThrows := false }

/-- `try { audio.pause(); audio.currentTime = 0; } catch { /* ignore */ }`:
on success the element is paused with position reset; if the host throws,
the element is left as it was, and the exception is swallowed. -/
def stopAudio (a : Audio) : Audio :=
  if a.pauseThrows then a else { a with paused := true, currentTime := 0 }

/-- `previewUrlFor(id)` (app.js:139-141). -/
def previewUrlFor (id : String) : String :=
  "/api/sound/" ++ id ++ "/preview"

/-- The mutable client state relevant to playback (subset of app.js `state`). -/
structure AppState where
  chaos : Bool
  loop : Bool
  playing : List (String × Audio)
  deriving Repr, DecidableEq

/-- `state` at startup: `chaos: false, loop: false, playing: new Map()`. -/
def initState : AppState :=
  { chaos := false, loop := false, playing := [] }

/-- `state.playing.has(id)`: the observable "session is Playing" query. -/
def isPlaying (id : String) (s : AppState) : Bool :=
  (lookupKey id s.playing).isSome

/-! ### `stopAll` (app.js:292-304) -/

/-- `stopAll()`: iterates `state.playing.entries()`; for each entry it
`try`-pauses/resets the element (exceptions ignored) and then
unconditionally `state.playing.delete(id)`. Returns the new state together
with the finalized audio elements (the heap objects after teardown). -/
def stopAll (s : AppState) : AppState × List (String × Audio) :=
  ( { s with playing := s.playing.foldl (fun m e => eraseKey e.1 m) s.playing },
    s.playing.map (fun e => (e.1, stopAudio e.2)) )

/-! ### `playSound` (app.js:306-365), split at its `await audio.play()` -/

/-- Result of the synchronous phase of `playSound` (everything up to and
including `state.playing.set(id, audio)` at app.js:354, before the
`await audio.play()`). `tornDown` records the audio elements paused and
reset during this call (by `stopAll` and by the existing-session branch). -/
structure PlayStartResult where
  state : AppState
  pendingId : String
  tornDown : List (String × Audio)
  deriving Repr, DecidableEq

/-- Synchronous phase of `playSound(sound, tileEl)`:
1. `if (!state.chaos) stopAll();`
2. existing session for `id`: `pause`, `currentTime = 0`, `delete` (app.js:322-331);
3. `new Audio(previewUrlFor(id))` with `audio.loop = state.loop`;
4. `state.playing.set(id, audio)` — the session is in the map from here on,
   before `await audio.play()` is entered. -/
def playStart (soundId : String) (s : AppState) : PlayStartResult :=
  let (s1, torn1) := if s.chaos then (s, []) else
    let r := stopAll s
    (r.1, r.2)
  match lookupKey soundId s1.playing with
  | some existing =>
      let s2 : AppState := { s1 with playing := eraseKey soundId s1.playing }
      let audio := newAudio (previewUrlFor soundId) s2.loop
      { state := { s2 with playing := (soundId, audio) :: s2.playing },
        pendingId := soundId,
        tornDown := torn1 ++ [(soundId, stopAudio existing)] }
  | none =>
      let audio := newAudio (previewUrlFor soundId) s1.loop
      { state := { s1 with playing := (soundId, audio) :: s1.playing },
        pendingId := soundId,
        tornDown := torn1 }

/-- Resolution of `await audio.play()` for the session started under
`soundId`: on fulfilment the `try` block ends with no further state change;
on rejection the `catch` runs `state.playing.delete(id)` (app.js:357-364). -/
def playResolve (soundId : String) (ok : Bool) (s : AppState) : AppState :=
  if ok then s else { s with playing := eraseKey soundId s.playing }

/-! ### Mode toggles (app.js:401-413) and the `ended` listener (app.js:338-344) -/

/-- `chaosBtn` click listener: `state.chaos = !state.chaos`. -/
def chaosToggle (s : AppState) : AppState :=
  { s with chaos := !s.chaos }

/-- `loopBtn` click listener: flips `state.loop` and then
`for (const audio of state.playing.values()) audio.loop = state.loop;` —
the new value is live-applied to every currently playing element. -/
def loopToggle (s : AppState) : AppState :=
  let nl := !s.loop
  { s with loop := nl,
           playing := s.playing.map (fun e => (e.1, { e.2 with loop := nl })) }

/-- The `ended` listener registered in `playSound`: it closes over the
element `audio` and the id; when the element ends naturally,
`if (!audio.loop) state.playing.delete(id)`. -/
def audioEnded (id : String) (a : Audio) (s : AppState) : AppState :=
  if a.loop then s else { s with playing := eraseKey id s.playing }

/-! ### Event traces over the session manager -/

/-- Fine-grained observable events of the session manager: the synchronous
phase of a `play`, the resolution of a pending `play` request, and
`stopAll` (the stop button / page-change handlers). -/
inductive Ev
  | playStartEv (id : String)
  | playResolveEv (id : String) (ok : Bool)
  | stopAllEv
  deriving Repr, DecidableEq

def stepEv (e : Ev) (s : AppState) : AppState :=
  match e with
  | .playStartEv id => (playStart id s).state
  | .playResolveEv id ok => playResolve id ok s
  | .stopAllEv => (stopAll s).1

def runEvs (evs : List Ev) (s : AppState) : AppState :=
  evs.foldl (fun s e => stepEv e s) s

/-! ### HTTP responses and network outcomes (host `fetch`) -/

/-- Model of a `Response`: status code and body. -/
structure Resp where
  status : Nat
  body : String
  deriving Repr, DecidableEq

/-- `res.ok`: status in the inclusive range 200-299. -/
def Resp.isOk (r : Resp) : Bool :=
  200 ≤ r.status && r.status ≤ 299

/-- One `fetch(request)` outcome: the promise fulfils with a response
(possibly a non-2xx one) or rejects (network failure / offline). -/
inductive NetResult
  | success (r : Resp)
  | failure
  deriving Repr, DecidableEq

/-- A cache tier's contents: resource key to stored response. -/
abbrev Cache := List (String × Resp)

/-! ### Service-worker strategy router (sw.js:25-43) and `cacheFirst` (sw.js:45-60) -/

def PREVIEW_CACHE : String := "sound-previews-v1"
def STATIC_CACHE : String := "soundboard-static-v1"

/-- `STATIC_ASSETS` (sw.js:4-9). -/
def STATIC_ASSETS : List String := ["./", "./index.html", "./styles.css", "./app.js"]

/-- JS `String.prototype.startsWith`, character-wise. -/
def strStartsWith (s p : String) : Bool := p.data.isPrefixOf s.data

/-- JS `String.prototype.endsWith`, character-wise. -/
def strEndsWith (s p : String) : Bool := p.data.isSuffixOf s.data

/-- Preview-class match (sw.js:33):
`url.pathname.startsWith("/api/sound/") && url.pathname.endsWith("/preview")`. -/
def isPreviewPath (p : String) : Bool :=
  strStartsWith p "/api/sound/" && strEndsWith p "/preview"

/-- Which handler the `fetch` listener dispatches to, with its tier. -/
inductive RouteDecision
  | cacheFirstOn (tier : String)
  | swrOn (tier : String)
  | passThrough
  deriving Repr, DecidableEq

/-- The `fetch` listener (sw.js:25-43): cross-origin requests pass through;
preview-class paths go to `cacheFirst` on the preview tier; static-shell
paths go to `staleWhileRevalidate` on the static tier; everything else
passes through unintercepted. -/
def routeFetch (sameOrigin : Bool) (path : String) : RouteDecision :=
  if !sameOrigin then .passThrough
  else if isPreviewPath path then .cacheFirstOn PREVIEW_CACHE
  else if STATIC_ASSETS.contains path || path = "/" then .swrOn STATIC_CACHE
  else .passThrough

/-- The synthetic response built in `cacheFirst`'s catch branch (sw.js:58):
`new Response("Offline and not cached", { status: 503 })`. -/
def offlineResponse : Resp :=
  { status := 503, body := "Offline and not cached" }

/-- Result of one `cacheFirst` run: the response returned to the page, the
tier contents afterwards, and how many network fetches were issued. -/
structure CFOut where
  response : Resp
  cache : Cache
  netFetches : Nat
  deriving Repr, DecidableEq

/-- `cacheFirst(request, cacheName)` (sw.js:45-60): consult the tier; on hit
return the cached response (no fetch); on miss `fetch`; if the response is
`ok` store a clone before returning it; a non-ok response is returned
unstored; if the fetch rejects, return the synthetic offline response. -/
def cacheFirst (net : NetResult) (cache : Cache) (request : String) : CFOut :=
  match lookupKey request cache with
  | some cached => { response := cached, cache := cache, netFetches := 0 }
  | none =>
    match net with
    | .success fresh =>
        if fresh.isOk then
          { response := fresh, cache := (request, fresh) :: cache, netFetches := 1 }
        else
          { response := fresh, cache := cache, netFetches := 1 }
    | .failure => { response := offlineResponse, cache := cache, netFetches := 1 }

/-! ### Explicit preview-cache helpers (app.js:104-126) -/

/-- `isCached(url)` (app.js:107-112): `if (!("caches" in window)) return false;`
then `cache.match(url)`. -/
def isCached (cachesAvailable : Bool) (cache : Cache) (url : String) : Bool :=
  if !cachesAvailable then false
  else (lookupKey url cache).isSome

/-- The value `cacheSoundPreview` resolves with: `false` (caching
unsupported), `"already"`, or `"cached"`. -/
inductive CSPResult
  | notSupported
  | already
  | cached
  deriving Repr, DecidableEq

/-- How `cacheSoundPreview` rejects: the explicit
`throw new Error("Cache fetch failed: " + status)` on a non-ok response,
or a rejection propagated from `fetch` itself. -/
inductive CSPError
  | fetchFailed (status : Nat)
  | networkError
  deriving Repr, DecidableEq

/-- Result of one `cacheSoundPreview` run. -/
structure CSPOut where
  result : Except CSPError CSPResult
  cache : Cache
  netFetches : Nat
  deriving Repr

/-- `cacheSoundPreview(url)` (app.js:114-126): when the cache capability is
absent it returns `false` at once (no fetch); on a cache hit it returns
`"already"` (no fetch); on a miss it fetches, throws on a non-ok status,
and otherwise stores the response and returns `"cached"`. -/
def cacheSoundPreview (cachesAvailable : Bool) (net : NetResult)
    (cache : Cache) (url : String) : CSPOut :=
  if !cachesAvailable then
    { result := .ok .notSupported, cache := cache, netFetches := 0 }
  else
    match lookupKey url cache with
    | some _ => { result := .ok .already, cache := cache, netFetches := 0 }
    | none =>
      match net with
      | .success res =>
          if res.isOk then
            { result := .ok .cached, cache := (url, res) :: cache, netFetches := 1 }
          else
            { result := .error (.fetchFailed res.status), cache := cache, netFetches := 1 }
      | .failure =>
          { result := .error .networkError, cache := cache, netFetches := 1 }

/-! ### Host `parseInt(_, 10)` and `String()` on integers -/

/-- Whitespace skipped by `parseInt`. -/
def isSpaceCh (c : Char) : Bool :=
  c = ' ' || c = '\t' || c = '\n' || c = '\r'

/-- ASCII decimal digit. -/
def isDigitCh (c : Char) : Bool :=
  48 ≤ c.toNat && c.toNat ≤ 57

/-- Value of a non-empty run of decimal digit characters. -/
def digitsVal (cs : List Char) : Nat :=
  cs.foldl (fun a c => 10 * a + (c.toNat - 48)) 0

/-- Longest decimal-digit prefix, `none` when there is no digit
(`parseInt` returns `NaN` then). -/
def parseNatPrefix (cs : List Char) : Option Nat :=
  let ds := cs.takeWhile isDigitCh
  if ds.isEmpty then none else some (digitsVal ds)

/-- `parseInt(s, 10)`: skip leading whitespace, optional sign, then the
longest digit prefix; `none` models `NaN`. Trailing non-digit characters
are ignored, as in JS. -/
def parseIntJs (s : String) : Option Int :=
  match s.data.dropWhile isSpaceCh with
  | [] => none
  | c :: rest =>
    if c = '-' then (parseNatPrefix rest).map (fun n => -(n : Int))
    else if c = '+' then (parseNatPrefix rest).map (fun n => (n : Int))
    else (parseNatPrefix (c :: rest)).map (fun n => (n : Int))

/-- Decimal digit character for `d < 10`. -/
def digitToChar (d : Nat) : Char := Char.ofNat (48 + d)

/-- Base-10 digits of `n`, least significant first, with explicit fuel so
the recursion is structural (the fuel never runs out when it starts at `n`). -/
def natToRevDigitsF : Nat → Nat → List Nat
  | _, 0 => []
  | 0, _ + 1 => []
  | f + 1, n + 1 => ((n + 1) % 10) :: natToRevDigitsF f ((n + 1) / 10)

/-- Base-10 digits of `n`, least significant first. -/
def natToRevDigits (n : Nat) : List Nat := natToRevDigitsF n n

/-- Decimal rendering of a natural number (JS `String(n)` for `n ≥ 0`). -/
def natToString (n : Nat) : String :=
  if n = 0 then "0" else ⟨(natToRevDigits n).reverse.map digitToChar⟩

/-- JS `String(v)` on an integer. -/
def intToString (v : Int) : String :=
  if v < 0 then "-" ++ natToString v.natAbs else natToString v.toNat

/-! ### Volume persistence (app.js:72-85) and the slider listener (app.js:447-456) -/

/-- `Math.min(200, Math.max(0, n))`. -/
def clampVol (n : Int) : Int := min 200 (max 0 n)

/-- `loadVolume()` (app.js:73-82). `getRaw` is the
`localStorage.getItem` call: it may throw (`.error`), return `null`
(`.ok none`) or a string. The body runs
`parseInt(raw || "100", 10)` and clamps a finite result to [0,200]; the
`catch` and the `NaN` case both yield 100. -/
def loadVolume (getRaw : Except Unit (Option String)) : Int :=
  match getRaw with
  | .error _ => 100
  | .ok raw =>
    let eff := match raw with
      | none => "100"
      | some s => if s = "" then "100" else s
    match parseIntJs eff with
    | some n => clampVol n
    | none => 100

/-- The volume-relevant client state: `state.volumePercent` and the
persisted `localStorage` slot written by `saveVolume`. -/
structure VolState where
  volumePercent : Int
  stored : Option String
  deriving Repr, DecidableEq

/-- The `volumeSlider` `input` listener (app.js:447-456):
`v = parseInt(volumeSlider.value, 10)`;
`state.volumePercent = Number.isFinite(v) ? v : 100`; then `saveVolume()`
persists `String(state.volumePercent)`. No clamping happens here. -/
def volumeInput (sliderValue : String) (_vs : VolState) : VolState :=
  let vp : Int := match parseIntJs sliderValue with
    | some n => n
    | none => 100
  { volumePercent := vp, stored := some (intToString vp) }

/-! ### Favorites persistence (app.js:55-64) -/

/-- JSON values as produced by `JSON.parse`. -/
inductive JSValue
  | null
  | bool (b : Bool)
  | num (n : Int)
  | str (s : String)
  | arr (items : List JSValue)
  | obj (fields : List (String × JSValue))

/-- JS truthiness of a parsed JSON value. -/
def jsTruthy : JSValue → Bool
  | .null => false
  | .bool b => b
  | .num n => n ≠ 0
  | .str s => s ≠ ""
  | .arr _ => true
  | .obj _ => true

/-- `typeof x === "object"` for a parsed JSON value (`null`, arrays and
objects all have typeof `"object"`). -/
def typeofObject : JSValue → Bool
  | .null => true
  | .arr _ => true
  | .obj _ => true
  | _ => false

/-- The `try` body of `loadFavorites()` (app.js:56-60): read the raw value
(`getRaw`, which may throw — the `.error` propagates), return `{}` on a
falsy raw value, `JSON.parse` it (`parse`, which may throw), and return the
parsed value only if it is a truthy object. -/
def loadFavoritesTry (getRaw : Except Unit (Option String))
    (parse : String → Except Unit JSValue) : Except Unit JSValue :=
  match getRaw with
  | .error e => .error e
  | .ok none => .ok (.obj [])
  | .ok (some s) =>
    if s = "" then .ok (.obj [])
    else
      match parse s with
      | .error e => .error e
      | .ok parsed =>
        .ok (if jsTruthy parsed && typeofObject parsed then parsed else .obj [])

/-- `loadFavorites()` (app.js:55-64): the `try` body with
`catch { return {}; }` around it. -/
def loadFavorites (getRaw : Except Unit (Option String))
    (parse : String → Except Unit JSValue) : JSValue :=
  match loadFavoritesTry getRaw parse with
  | .ok v => v
  | .error _ => .obj []

/-! ### Auxiliary lemmas about the association-list operations -/

theorem lookupKey_mem {α : Type} {k : String} {v : α} :
    ∀ {m : List (String × α)}, lookupKey k m = some v → (k, v) ∈ m := by
  intro m
  induction m with
  | nil => intro h; simp [lookupKey] at h
  | cons x xs ih =>
    intro h
    obtain ⟨k', v'⟩ := x
    by_cases hk : k' = k
    · subst hk
      simp [lookupKey] at h
      subst h
      exact List.mem_cons_self _ _
    · simp [lookupKey, hk] at h
      exact List.mem_cons_of_mem _ (ih h)

theorem mem_eraseKey {α : Type} {k : String} {e : String × α} {m : List (String × α)}
    (h : e ∈ eraseKey k m) : e ∈ m ∧ e.1 ≠ k := by
  unfold eraseKey at h
  have h' := List.mem_filter.mp h
  exact ⟨h'.1, by simpa using h'.2⟩

theorem lookupKey_eq_none_of_forall {α : Type} {k : String} :
    ∀ {m : List (String × α)}, (∀ e ∈ m, e.1 ≠ k) → lookupKey k m = none := by
  intro m
  induction m with
  | nil => intro _; rfl
  | cons x xs ih =>
    intro h
    obtain ⟨k', v'⟩ := x
    have hx : k' ≠ k := h (k', v') (List.mem_cons_self _ _)
    simp only [lookupKey, if_neg hx]
    exact ih fun e he => h e (List.mem_cons_of_mem _ he)

theorem lookupKey_eraseKey_self {α : Type} (k : String) (m : List (String × α)) :
    lookupKey k (eraseKey k m) = none :=
  lookupKey_eq_none_of_forall fun _e he => (mem_eraseKey he).2

theorem countKey_cons_self {α : Type} (k : String) (v : α) (m : List (String × α)) :
    countKey k ((k, v) :: m) = countKey k m + 1 := by
  simp [countKey]

theorem countKey_eq_zero_of_forall {α : Type} {k : String} {m : List (String × α)}
    (h : ∀ e ∈ m, e.1 ≠ k) : countKey k m = 0 := by
  unfold countKey
  rw [List.length_eq_zero]
  rw [List.filter_eq_nil_iff]
  intro e he
  simpa using h e he

theorem countKey_eraseKey_self {α : Type} (k : String) (m : List (String × α)) :
    countKey k (eraseKey k m) = 0 :=
  countKey_eq_zero_of_forall fun _e he => (mem_eraseKey he).2

theorem length_eraseKey_le {α : Type} (k : String) (m : List (String × α)) :
    (eraseKey k m).length ≤ m.length :=
  List.length_filter_le _ m

theorem foldl_eraseKey_eq_nil {α : Type} :
    ∀ (l m : List (String × α)), (∀ e ∈ m, e.1 ∈ l.map Prod.fst) →
      l.foldl (fun acc e => eraseKey e.1 acc) m = [] := by
  intro l
  induction l with
  | nil =>
    intro m h
    cases m with
    | nil => rfl
    | cons x xs => simpa using h x (List.mem_cons_self _ _)
  | cons x xs ih =>
    intro m h
    simp only [List.foldl_cons]
    apply ih
    intro e he
    obtain ⟨hem, hne⟩ := mem_eraseKey he
    have hk := h e hem
    simp only [List.map_cons, List.mem_cons] at hk
    rcases hk with h1 | h2
    · exact absurd h1 hne
    · exact h2

/-- `stopAll` always leaves the playing map empty: the `delete` runs outside
the `try`/`catch`, so every entry is removed regardless of pause failures. -/
theorem stopAll_playing_nil (s : AppState) : ((stopAll s).1).playing = [] := by
  apply foldl_eraseKey_eq_nil
  intro e he
  exact List.mem_map_of_mem Prod.fst he

/-! ### Auxiliary lemmas: decimal print/parse round trip -/

theorem digitToChar_toNat {d : Nat} (h : d < 10) : (digitToChar d).toNat = 48 + d := by
  interval_cases d <;> decide

theorem isDigitCh_digitToChar {d : Nat} (h : d < 10) : isDigitCh (digitToChar d) = true := by
  interval_cases d <;> decide

theorem not_space_of_digit {c : Char} (h : isDigitCh c = true) : isSpaceCh c = false := by
  unfold isDigitCh at h
  simp only [Bool.and_eq_true, decide_eq_true_eq] at h
  unfold isSpaceCh
  have h1 : c ≠ ' ' := by rintro rfl; simp at h
  have h2 : c ≠ '\t' := by rintro rfl; simp at h
  have h3 : c ≠ '\n' := by rintro rfl; simp at h
  have h4 : c ≠ '\r' := by rintro rfl; simp at h
  simp [h1, h2, h3, h4]

theorem ne_dash_of_digit {c : Char} (h : isDigitCh c = true) : c ≠ '-' := by
  rintro rfl; exact absurd h (by decide)

theorem ne_plus_of_digit {c : Char} (h : isDigitCh c = true) : c ≠ '+' := by
  rintro rfl; exact absurd h (by decide)

theorem digitsVal_append (xs : List Char) (c : Char) :
    digitsVal (xs ++ [c]) = 10 * digitsVal xs + (c.toNat - 48) := by
  unfold digitsVal
  rw [List.foldl_append]
  rfl

theorem mem_natToRevDigitsF_lt : ∀ f n : Nat, ∀ d ∈ natToRevDigitsF f n, d < 10 := by
  intro f
  induction f with
  | zero => intro n d hd; cases n <;> simp [natToRevDigitsF] at hd
  | succ f ih =>
    intro n d hd
    cases n with
    | zero => simp [natToRevDigitsF] at hd
    | succ m =>
      rw [natToRevDigitsF] at hd
      rcases List.mem_cons.mp hd with h1 | h2
      · subst h1; exact Nat.mod_lt _ (by omega)
      · exact ih _ d h2

theorem mem_natToRevDigits_lt (n : Nat) : ∀ d ∈ natToRevDigits n, d < 10 :=
  mem_natToRevDigitsF_lt n n

theorem digitsVal_revDigitsF : ∀ f n : Nat, n ≤ f →
    digitsVal ((natToRevDigitsF f n).reverse.map digitToChar) = n := by
  intro f
  induction f with
  | zero =>
    intro n hn
    interval_cases n
    rfl
  | succ f ih =>
    intro n hn
    cases n with
    | zero => rfl
    | succ m =>
      rw [natToRevDigitsF]
      simp only [List.reverse_cons, List.map_append, List.map_cons, List.map_nil]
      rw [digitsVal_append]
      rw [ih ((m + 1) / 10) (by omega)]
      rw [digitToChar_toNat (Nat.mod_lt _ (by omega))]
      omega

theorem digitsVal_revDigits (n : Nat) :
    digitsVal ((natToRevDigits n).reverse.map digitToChar) = n :=
  digitsVal_revDigitsF n n le_rfl

theorem natToString_data_props (n : Nat) :
    (natToString n).data ≠ [] ∧ (∀ c ∈ (natToString n).data, isDigitCh c = true) ∧
      digitsVal (natToString n).data = n := by
  by_cases h0 : n = 0
  · subst h0
    refine ⟨by decide, by decide, by decide⟩
  · unfold natToString
    rw [if_neg h0]
    refine ⟨?_, ?_, ?_⟩
    · cases hn : n with
      | zero => exact absurd hn h0
      | succ m =>
        simp [natToRevDigits, natToRevDigitsF]
    · intro c hc
      simp only [String.data] at hc
      rcases List.mem_map.mp hc with ⟨d, hd, rfl⟩
      exact isDigitCh_digitToChar (mem_natToRevDigits_lt n d (List.mem_reverse.mp hd))
    · exact digitsVal_revDigits n

theorem parseNatPrefix_all_digits {l : List Char} (hne : l ≠ [])
    (hd : ∀ c ∈ l, isDigitCh c = true) :
    parseNatPrefix l = some (digitsVal l) := by
  unfold parseNatPrefix
  rw [List.takeWhile_eq_self_iff.mpr hd]
  have hie : l.isEmpty = false := by
    cases l with
    | nil => exact absurd rfl hne
    | cons a as => rfl
  simp [hie]

theorem parseIntJs_all_digits {l : List Char} (hne : l ≠ [])
    (hd : ∀ c ∈ l, isDigitCh c = true) :
    parseIntJs ⟨l⟩ = some ((digitsVal l : Nat) : Int) := by
  cases l with
  | nil => exact absurd rfl hne
  | cons c rest =>
    have hc := hd c (List.mem_cons_self _ _)
    have hsp : isSpaceCh c = false := not_space_of_digit hc
    unfold parseIntJs
    have hdata : (String.mk (c :: rest)).data = c :: rest := rfl
    rw [hdata]
    rw [List.dropWhile_cons]
    rw [hsp]
    simp only [Bool.false_eq_true, if_false]
    rw [if_neg (ne_dash_of_digit hc), if_neg (ne_plus_of_digit hc)]
    rw [parseNatPrefix_all_digits hne hd]
    rfl

theorem parseIntJs_intToString (v : Int) : parseIntJs (intToString v) = some v := by
  by_cases hv : v < 0
  · obtain ⟨hne, hdig, hval⟩ := natToString_data_props v.natAbs
    unfold intToString
    rw [if_pos hv]
    unfold parseIntJs
    rw [String.data_append]
    have hdash : ("-" : String).data = ['-'] := rfl
    rw [hdash]
    simp only [List.cons_append, List.nil_append]
    rw [List.dropWhile_cons]
    have : isSpaceCh '-' = false := by decide
    rw [this]
    simp only [Bool.false_eq_true, if_false]
    rw [parseNatPrefix_all_digits hne hdig, hval]
    simp only [if_true, reduceIte, Option.pure_def, Option.bind_eq_bind, Option.some_bind,
      Option.map_some', Option.some.injEq]
    omega
  · obtain ⟨hne, hdig, hval⟩ := natToString_data_props v.toNat
    unfold intToString
    rw [if_neg hv]
    have := parseIntJs_all_digits (l := (natToString v.toNat).data) hne hdig
    have hmk : String.mk (natToString v.toNat).data = natToString v.toNat := rfl
    rw [hmk] at this
    rw [this, hval]
    congr 1
    omega

/-! ### Auxiliary lemmas about `playStart` / `playResolve` / `stopAll` -/

theorem lookupKey_nil {α : Type} (k : String) : lookupKey k ([] : List (String × α)) = none := rfl

theorem lookupKey_cons {α : Type} (k k' : String) (v : α) (m : List (String × α)) :
    lookupKey k ((k', v) :: m) = if k' = k then some v else lookupKey k m := rfl

theorem lookupKey_eq_none_forall {α : Type} {k : String} :
    ∀ {m : List (String × α)}, lookupKey k m = none → ∀ e ∈ m, e.1 ≠ k := by
  intro m
  induction m with
  | nil => intro _ e he; simp at he
  | cons x xs ih =>
    intro h e he
    obtain ⟨k', v'⟩ := x
    by_cases hk : k' = k
    · rw [lookupKey_cons, if_pos hk] at h; exact absurd h (by simp)
    · rw [lookupKey_cons, if_neg hk] at h
      rcases List.mem_cons.mp he with rfl | h2
      · exact hk
      · exact ih h e h2

theorem stopAll_fst_chaos (s : AppState) : ((stopAll s).1).chaos = s.chaos := rfl

theorem stopAll_fst_loop (s : AppState) : ((stopAll s).1).loop = s.loop := rfl

/-- In non-overlap (chaos off) mode, the synchronous phase of `playSound`
first empties the playing map via `stopAll` (tearing every element down)
and then registers exactly the one new session. -/
theorem playStart_chaos_false {s : AppState} (hc : s.chaos = false) (id : String) :
    playStart id s =
      { state := { chaos := false, loop := s.loop,
                   playing := [(id, newAudio (previewUrlFor id) s.loop)] },
        pendingId := id,
        tornDown := s.playing.map (fun e => (e.1, stopAudio e.2)) } := by
  unfold playStart
  rw [hc]
  simp only [Bool.false_eq_true, if_false]
  rw [show lookupKey id ((stopAll s).1).playing = none from by
    rw [stopAll_playing_nil]; rfl]
  simp only [stopAll]
  rw [foldl_eraseKey_eq_nil _ _ (fun e he => List.mem_map_of_mem Prod.fst he)]
  simp [hc]

/-- In overlap (chaos on) mode with an existing session for the id, the
synchronous phase tears down exactly that session and replaces it. -/
theorem playStart_chaos_true_some {s : AppState} (hc : s.chaos = true)
    {id : String} {a : Audio} (h : lookupKey id s.playing = some a) :
    playStart id s =
      { state := { chaos := true, loop := s.loop,
                   playing := (id, newAudio (previewUrlFor id) s.loop) :: eraseKey id s.playing },
        pendingId := id,
        tornDown := [(id, stopAudio a)] } := by
  unfold playStart
  rw [hc]
  simp only [if_true]
  rw [h]
  simp [hc]

/-- In overlap mode with no existing session for the id, nothing is torn
down and the new session is prepended. -/
theorem playStart_chaos_true_none {s : AppState} (hc : s.chaos = true)
    {id : String} (h : lookupKey id s.playing = none) :
    playStart id s =
      { state := { chaos := true, loop := s.loop,
                   playing := (id, newAudio (previewUrlFor id) s.loop) :: s.playing },
        pendingId := id,
        tornDown := [] } := by
  unfold playStart
  rw [hc]
  simp only [if_true]
  rw [h]
  simp [hc]

/-- The playing map after `playStart id` is the new session consed onto a
tail free of `id` (empty when chaos is off). -/
theorem playStart_playing_shape (id : String) (s : AppState) :
    ∃ rest, (playStart id s).state.playing =
        (id, newAudio (previewUrlFor id) s.loop) :: rest ∧
      lookupKey id rest = none ∧
      (s.chaos = false → rest = []) := by
  cases hc : s.chaos with
  | false =>
    refine ⟨[], ?_, rfl, fun _ => rfl⟩
    rw [playStart_chaos_false hc]
  | true =>
    cases h : lookupKey id s.playing with
    | some a =>
      refine ⟨eraseKey id s.playing, ?_, lookupKey_eraseKey_self id s.playing, ?_⟩
      · rw [playStart_chaos_true_some hc h]
      · intro hcf; exact absurd hcf (by simp)
    | none =>
      refine ⟨s.playing, ?_, h, ?_⟩
      · rw [playStart_chaos_true_none hc h]
      · intro hcf; exact absurd hcf (by simp)

theorem playStart_state_chaos (id : String) (s : AppState) :
    (playStart id s).state.chaos = s.chaos := by
  cases hc : s.chaos with
  | false => rw [playStart_chaos_false hc]
  | true =>
    cases h : lookupKey id s.playing with
    | some a => rw [playStart_chaos_true_some hc h]
    | none => rw [playStart_chaos_true_none hc h]

theorem playStart_state_loop (id : String) (s : AppState) :
    (playStart id s).state.loop = s.loop := by
  cases hc : s.chaos with
  | false => rw [playStart_chaos_false hc]
  | true =>
    cases h : lookupKey id s.playing with
    | some a => rw [playStart_chaos_true_some hc h]
    | none => rw [playStart_chaos_true_none hc h]

/-- Right after the synchronous phase of a `play`, the id maps to the fresh
element (loop flag copied from the global mode, position zero). -/
theorem lookupKey_playStart_self (id : String) (s : AppState) :
    lookupKey id (playStart id s).state.playing =
      some (newAudio (previewUrlFor id) s.loop) := by
  obtain ⟨rest, hshape, -, -⟩ := playStart_playing_shape id s
  rw [hshape, lookupKey_cons, if_pos rfl]

theorem playResolve_chaos (id : String) (ok : Bool) (s : AppState) :
    (playResolve id ok s).chaos = s.chaos := by
  unfold playResolve
  cases ok <;> simp

theorem playResolve_length_le (id : String) (ok : Bool) (s : AppState) :
    (playResolve id ok s).playing.length ≤ s.playing.length := by
  unfold playResolve
  cases ok with
  | false => simpa using List.length_filter_le _ s.playing
  | true => simp

theorem lookupKey_map_snd {α β : Type} (f : α → β) (k : String) :
    ∀ m : List (String × α),
      lookupKey k (m.map (fun e => (e.1, f e.2))) = (lookupKey k m).map f := by
  intro m
  induction m with
  | nil => rfl
  | cons x xs ih =>
    obtain ⟨k', v⟩ := x
    by_cases hk : k' = k
    · simp [lookupKey_cons, hk]
    · simp [lookupKey_cons, hk, ih]

/-- `loopToggle` written as an explicit record (let-expansion of the
listener body). -/
theorem loopToggle_eq (s : AppState) :
    loopToggle s =
      { chaos := s.chaos, loop := !s.loop,
        playing := s.playing.map (fun e => (e.1, { e.2 with loop := !s.loop })) } := rfl

/-- The non-overlap invariant: starting from a state with chaos off and at
most one entry in the playing map, every event sequence keeps chaos off and
the map at no more than one entry. -/
theorem runEvs_nonoverlap_invariant (evs : List Ev) :
    ∀ s : AppState, s.chaos = false → s.playing.length ≤ 1 →
      (runEvs evs s).chaos = false ∧ (runEvs evs s).playing.length ≤ 1 := by
  induction evs with
  | nil => intro s hc hl; exact ⟨hc, hl⟩
  | cons e rest ih =>
    intro s hc hl
    have hstep : (stepEv e s).chaos = false ∧ (stepEv e s).playing.length ≤ 1 := by
      cases e with
      | playStartEv id =>
        refine ⟨?_, ?_⟩
        · show (playStart id s).state.chaos = false
          rw [playStart_state_chaos]; exact hc
        · show (playStart id s).state.playing.length ≤ 1
          rw [playStart_chaos_false hc]; simp
      | playResolveEv id ok =>
        refine ⟨?_, ?_⟩
        · show (playResolve id ok s).chaos = false
          rw [playResolve_chaos]; exact hc
        · exact le_trans (playResolve_length_le id ok s) hl
      | stopAllEv =>
        refine ⟨?_, ?_⟩
        · show ((stopAll s).1).chaos = false
          rw [stopAll_fst_chaos]; exact hc
        · show ((stopAll s).1).playing.length ≤ 1
          rw [stopAll_playing_nil]; simp
    exact ih (stepEv e s) hstep.1 hstep.2

/-! ## Claims -/

/-- Concrete fixtures used by the witnesses. -/
def auThrowing : Audio :=
  { url := "u", loop := false, paused := false, currentTime := 5, pauseThrows := true }

def auClean : Audio :=
  { url := "v", loop := true, paused := false, currentTime := 3, pauseThrows := false }

def stC8 : AppState := { chaos := false, loop := false, playing := [("y", auClean)] }

def stC2 : AppState := { chaos := false, loop := true, playing := [("c", auClean)] }

def stC10 : AppState := { chaos := true, loop := false, playing := [("x", auThrowing), ("y", auClean)] }

/-- C1: for every sequence of play/stop events executed while chaos is
false, at most one audio session is in the Playing state at any observed
point (the playing map never holds more than one entry), and each play in
non-overlap mode first transitions every existing Playing session to Idle
(`stopAll`) before creating the new session, leaving exactly the new one. -/
theorem c1_nonoverlap_single_session (evs : List Ev) (s : AppState) (id : String)
    (hchaos : s.chaos = false) (hlen : s.playing.length ≤ 1) :
    (runEvs evs s).playing.length ≤ 1 ∧
    (playStart id s).state.playing = [(id, newAudio (previewUrlFor id) s.loop)] := by
  refine ⟨(runEvs_nonoverlap_invariant evs s hchaos hlen).2, ?_⟩
  rw [playStart_chaos_false hchaos]

/-- Witness for C1 at a concrete trace. -/
theorem c1_witness :
    (initState.chaos = false ∧ initState.playing.length ≤ 1) ∧
    ((runEvs [.playStartEv "a", .playResolveEv "a" true, .playStartEv "b"]
        initState).playing.length ≤ 1 ∧
     (playStart "b" initState).state.playing =
       [("b", newAudio (previewUrlFor "b") initState.loop)]) :=
  ⟨⟨rfl, by decide⟩,
   c1_nonoverlap_single_session
     [.playStartEv "a", .playResolveEv "a" true, .playStartEv "b"]
     initState "b" rfl (by decide)⟩

/-- C8: playing an id that is already Playing yields exactly one Playing
session for that id afterward (never two); the existing element is torn
down synchronously (paused, position reset to zero, when its pause does
not throw) before the new one starts, and the new session starts at
position zero. -/
theorem c8_restart_single_session (s : AppState) (id : String) (a : Audio)
    (hplay : lookupKey id s.playing = some a) :
    countKey id (playStart id s).state.playing = 1 ∧
    lookupKey id (playStart id s).state.playing =
      some (newAudio (previewUrlFor id) s.loop) ∧
    (newAudio (previewUrlFor id) s.loop).currentTime = 0 ∧
    (id, stopAudio a) ∈ (playStart id s).tornDown ∧
    (a.pauseThrows = false →
      (stopAudio a).paused = true ∧ (stopAudio a).currentTime = 0) := by
  refine ⟨?_, lookupKey_playStart_self id s, rfl, ?_, ?_⟩
  · obtain ⟨rest, hshape, hnone, -⟩ := playStart_playing_shape id s
    rw [hshape, countKey_cons_self,
        countKey_eq_zero_of_forall (lookupKey_eq_none_forall hnone)]
  · cases hc : s.chaos with
    | false =>
      rw [playStart_chaos_false hc]
      exact List.mem_map_of_mem _ (lookupKey_mem hplay)
    | true =>
      rw [playStart_chaos_true_some hc hplay]
      simp
  · intro hnt
    simp [stopAudio, hnt]

/-- Witness for C8: restarting a playing sound with a clean pause handle. -/
theorem c8_witness :
    lookupKey "y" stC8.playing = some auClean ∧
    (countKey "y" (playStart "y" stC8).state.playing = 1 ∧
     lookupKey "y" (playStart "y" stC8).state.playing =
       some (newAudio (previewUrlFor "y") stC8.loop) ∧
     (newAudio (previewUrlFor "y") stC8.loop).currentTime = 0 ∧
     ("y", stopAudio auClean) ∈ (playStart "y" stC8).tornDown ∧
     (auClean.pauseThrows = false →
       (stopAudio auClean).paused = true ∧ (stopAudio auClean).currentTime = 0)) :=
  ⟨by decide, c8_restart_single_session stC8 "y" auClean (by decide)⟩

/-- C3 counterexample: the claim says the session is not observable as
Playing before the begin-playback request resolves, but the code runs
`state.playing.set(id, audio)` before `await audio.play()`, so right after
the synchronous phase of `play("1")` — with the request still pending —
`isPlaying "1"` is already true. -/
theorem c3_counterexample :
    isPlaying "1" (playStart "1" initState).state = true := by
  decide

/-- C3 (amended): the session is marked Playing before the begin-playback
request resolves (`isPlaying` is true while the request is pending); if the
request is rejected, the rejection handler reverts the session to Idle; and
a session stopped (stop-all) while its start request is pending ends up
Idle once the request resolves, whether it fulfils or rejects — never
resurrected as Playing. -/
theorem c3_amended_pending_visible (s : AppState) (id : String) :
    isPlaying id (playStart id s).state = true ∧
    (∀ s' : AppState, isPlaying id (playResolve id false s') = false) ∧
    (∀ ok : Bool,
      isPlaying id (playResolve id ok ((stopAll (playStart id s).state).1)) = false) := by
  refine ⟨?_, ?_, ?_⟩
  · rw [isPlaying, lookupKey_playStart_self]; rfl
  · intro s'
    rw [isPlaying]
    show (lookupKey id ({ s' with playing := eraseKey id s'.playing } : AppState).playing).isSome = false
    rw [lookupKey_eraseKey_self]
    rfl
  · intro ok
    cases ok with
    | true =>
      rw [isPlaying]
      show (lookupKey id ((stopAll (playStart id s).state).1).playing).isSome = false
      rw [stopAll_playing_nil]
      rfl
    | false =>
      rw [isPlaying]
      show (lookupKey id (eraseKey id ((stopAll (playStart id s).state).1).playing)).isSome = false
      rw [lookupKey_eraseKey_self]
      rfl

/-- C2 counterexample: with loop enabled, sound "c" playing (looping), then
loop disabled via the controller, the claim says "c" continues looping
until explicitly stopped; but the loop listener live-applies the new value
to every playing element, so "c"'s element has `loop = false` after the
toggle, and the next natural end-of-stream removes it from the playing map
with no explicit stop. -/
theorem c2_counterexample :
    (lookupKey "c" (loopToggle (playResolve "c" true
        (playStart "c" (loopToggle initState)).state)).playing).map Audio.loop
      = some false ∧
    isPlaying "c"
      (audioEnded "c" { newAudio (previewUrlFor "c") true with loop := false }
        (loopToggle (playResolve "c" true
          (playStart "c" (loopToggle initState)).state))) = false := by
  decide

/-- C2 (amended): disabling loop while sound C's session is looping does
not stop C immediately (it stays Playing), but the new `loop = false` is
live-applied to C's element, so C ends naturally at its next end-of-stream
check instead of continuing to loop; and a sound D freshly started after
the toggle is created with `loop = false`. -/
theorem c2_amended_loop_live_applied (s : AppState) (id : String) (a : Audio)
    (hloop : s.loop = true) (h : lookupKey id s.playing = some a) :
    isPlaying id (loopToggle s) = true ∧
    lookupKey id (loopToggle s).playing = some { a with loop := false } ∧
    isPlaying id (audioEnded id { a with loop := false } (loopToggle s)) = false ∧
    ∀ d : String, lookupKey d (playStart d (loopToggle s)).state.playing =
      some (newAudio (previewUrlFor d) false) := by
  have hm : lookupKey id (loopToggle s).playing
      = (lookupKey id s.playing).map (fun b => { b with loop := !s.loop }) := by
    rw [loopToggle_eq]
    exact lookupKey_map_snd (fun b => { b with loop := !s.loop }) id s.playing
  have hlk : lookupKey id (loopToggle s).playing = some { a with loop := false } := by
    rw [hm, h, hloop]
    simp
  refine ⟨?_, hlk, ?_, ?_⟩
  · rw [isPlaying, hlk]; rfl
  · rw [isPlaying]
    show (lookupKey id (eraseKey id (loopToggle s).playing)).isSome = false
    rw [lookupKey_eraseKey_self]
    rfl
  · intro d
    rw [lookupKey_playStart_self d (loopToggle s)]
    rw [show (loopToggle s).loop = !s.loop from rfl, hloop]
    rfl

/-- Witness for the amended C2 at a concrete looping session. -/
theorem c2_witness :
    (stC2.loop = true ∧ lookupKey "c" stC2.playing = some auClean) ∧
    (isPlaying "c" (loopToggle stC2) = true ∧
     lookupKey "c" (loopToggle stC2).playing = some { auClean with loop := false } ∧
     isPlaying "c" (audioEnded "c" { auClean with loop := false } (loopToggle stC2)) = false ∧
     ∀ d : String, lookupKey d (playStart d (loopToggle stC2)).state.playing =
       some (newAudio (previewUrlFor d) false)) :=
  ⟨⟨rfl, by decide⟩,
   c2_amended_loop_live_applied stC2 "c" auClean rfl (by decide)⟩

/-- C10: `stopAll` never throws (a handle whose pause/reset raises is
caught by the per-entry `try`/`catch`) and always leaves the playing map
empty: every session entry is removed regardless of whether its handle's
teardown threw, and a handle whose teardown did not throw ends paused at
position zero. -/
theorem c10_stopAll_safe (s : AppState) :
    ((stopAll s).1).playing = [] ∧
    (∀ id a, (id, a) ∈ s.playing →
      (id, stopAudio a) ∈ (stopAll s).2 ∧
      (a.pauseThrows = false →
        (stopAudio a).paused = true ∧ (stopAudio a).currentTime = 0) ∧
      (a.pauseThrows = true → stopAudio a = a)) := by
  refine ⟨stopAll_playing_nil s, ?_⟩
  intro id a hmem
  refine ⟨List.mem_map_of_mem _ hmem, ?_, ?_⟩
  · intro hnt; simp [stopAudio, hnt]
  · intro ht; simp [stopAudio, ht]

/-- Witness for C10: a map with one throwing and one clean handle. -/
theorem c10_witness :
    ((stopAll stC10).1).playing = [] ∧
    ("x", stopAudio auThrowing) ∈ (stopAll stC10).2 ∧
    ("y", stopAudio auClean) ∈ (stopAll stC10).2 :=
  ⟨(c10_stopAll_safe stC10).1,
   ((c10_stopAll_safe stC10).2 "x" auThrowing (by decide)).1,
   ((c10_stopAll_safe stC10).2 "y" auClean (by decide)).1⟩

/-- `intToString` never produces the empty string. -/
theorem intToString_ne_empty (v : Int) : intToString v ≠ "" := by
  by_cases hv : v < 0
  · unfold intToString
    rw [if_pos hv]
    intro hcon
    have hd := congrArg String.data hcon
    rw [String.data_append] at hd
    simp at hd
  · unfold intToString
    rw [if_neg hv]
    obtain ⟨hne, -, -⟩ := natToString_data_props v.toNat
    intro hcon
    exact hne (congrArg String.data hcon)

/-- `loadVolume` on a successfully read non-empty raw string parses and
clamps it. -/
theorem loadVolume_ok_some (s : String) (hs : s ≠ "") :
    loadVolume (.ok (some s)) =
      match parseIntJs s with
      | some n => clampVol n
      | none => 100 := by
  simp only [loadVolume]
  rw [if_neg hs]

/-- C4 counterexample: the slider listener does not clamp: `setVolume(300)`
persists the raw `"300"` and applies 300 to the live volume, where the
claim's "clamps its argument to [0,200] and persists" would require the
persisted value to be the clamped `"200"`. -/
theorem c4_counterexample :
    (volumeInput "300" { volumePercent := 100, stored := none }).stored = some "300" ∧
    (volumeInput "300" { volumePercent := 100, stored := none }).volumePercent = 300 ∧
    some "300" ≠ some (intToString (clampVol 300)) := by
  refine ⟨by decide, by decide, ?_⟩
  intro hcon
  exact absurd (Option.some.inj hcon) (by decide)

/-- C4 (amended): the slider handler stores the parsed value unclamped
(`String(v)`) and applies it unclamped to the live volume; the clamp to
[0,200] is applied by `loadVolume` when the persisted value is read back,
so for every integer v the round trip `setVolume(v)` then read-back yields
`clamp(v, 0, 200)`. -/
theorem c4_amended_roundtrip_clamps_on_load (v : Int) (vs : VolState) :
    (volumeInput (intToString v) vs).volumePercent = v ∧
    (volumeInput (intToString v) vs).stored = some (intToString v) ∧
    loadVolume (.ok (volumeInput (intToString v) vs).stored) = clampVol v := by
  have hp : parseIntJs (intToString v) = some v := parseIntJs_intToString v
  have hvi : volumeInput (intToString v) vs =
      { volumePercent := v, stored := some (intToString v) } := by
    unfold volumeInput
    rw [hp]
  refine ⟨by rw [hvi], by rw [hvi], ?_⟩
  rw [hvi]
  show loadVolume (.ok (some (intToString v))) = clampVol v
  rw [loadVolume_ok_some (intToString v) (intToString_ne_empty v), hp]

/-- C9: loading persisted state never throws, for every stored value: a
raised storage read, a missing (null/empty) value, or an unparsable value
all fall back to the defaults — empty favorites object and volume 100 —
and a `loadFavorites` body that throws anywhere is caught and mapped to
the empty object. -/
theorem c9_load_never_throws_defaults (getRaw : Except Unit (Option String))
    (parse : String → Except Unit JSValue) :
    (getRaw = .error () → loadFavorites getRaw parse = .obj [] ∧ loadVolume getRaw = 100) ∧
    (getRaw = .ok none → loadFavorites getRaw parse = .obj [] ∧ loadVolume getRaw = 100) ∧
    (getRaw = .ok (some "") → loadFavorites getRaw parse = .obj [] ∧ loadVolume getRaw = 100) ∧
    (∀ s, getRaw = .ok (some s) → parse s = .error () →
      loadFavorites getRaw parse = .obj []) ∧
    (∀ s, getRaw = .ok (some s) → s ≠ "" → parseIntJs s = none → loadVolume getRaw = 100) ∧
    (∀ e, loadFavoritesTry getRaw parse = .error e → loadFavorites getRaw parse = .obj []) := by
  refine ⟨?_, ?_, ?_, ?_, ?_, ?_⟩
  · rintro rfl; exact ⟨rfl, rfl⟩
  · rintro rfl; exact ⟨rfl, rfl⟩
  · rintro rfl; exact ⟨rfl, rfl⟩
  · rintro s rfl hparse
    by_cases hs : s = ""
    · subst hs; rfl
    · simp only [loadFavorites, loadFavoritesTry]
      rw [if_neg hs, hparse]
  · rintro s rfl hs hparse
    rw [loadVolume_ok_some s hs, hparse]
  · intro e herr
    unfold loadFavorites
    rw [herr]

/-- Witness for C9 at concrete corrupt/missing stored values. -/
theorem c9_witness :
    loadFavorites (.error ()) (fun _ => .error ()) = .obj [] ∧
    loadVolume (.error ()) = 100 ∧
    loadFavorites (.ok (some "!!corrupt")) (fun _ => .error ()) = .obj [] ∧
    loadVolume (.ok (some "abc")) = 100 :=
  ⟨((c9_load_never_throws_defaults (.error ()) (fun _ => .error ())).1 rfl).1,
   ((c9_load_never_throws_defaults (.error ()) (fun _ => .error ())).1 rfl).2,
   (c9_load_never_throws_defaults (.ok (some "!!corrupt"))
     (fun _ => .error ())).2.2.2.1 "!!corrupt" rfl rfl,
   (c9_load_never_throws_defaults (.ok (some "abc"))
     (fun _ => .error ())).2.2.2.2.1 "abc" rfl (by decide) (by decide)⟩

/-! ### Cache claims -/

/-- A first `cacheSoundPreview` call that resolved `"cached"` implies: the
capability was present, the key was a miss, the fetch succeeded with an ok
status, and the response is now stored under the key. -/
theorem cacheSoundPreview_cached_characterize {ca : Bool} {net : NetResult}
    {cache : Cache} {url : String}
    (h : (cacheSoundPreview ca net cache url).result = .ok .cached) :
    ∃ res : Resp, net = .success res ∧ res.isOk = true ∧
      lookupKey url cache = none ∧
      (cacheSoundPreview ca net cache url).cache = (url, res) :: cache := by
  cases ca with
  | false => simp [cacheSoundPreview] at h
  | true =>
    cases hl : lookupKey url cache with
    | some r => simp [cacheSoundPreview, hl] at h
    | none =>
      cases net with
      | failure => simp [cacheSoundPreview, hl] at h
      | success res =>
        by_cases hok : res.isOk
        · exact ⟨res, rfl, hok, rfl, by simp [cacheSoundPreview, hl, hok]⟩
        · simp [cacheSoundPreview, hl, hok] at h

/-- A `cacheSoundPreview` call on a key already present is a pure cache
hit: no fetch, `"already"`, cache unchanged. -/
theorem cacheSoundPreview_hit {cache : Cache} {url : String} {r : Resp}
    (h : lookupKey url cache = some r) (net : NetResult) :
    cacheSoundPreview true net cache url =
      { result := .ok .already, cache := cache, netFetches := 0 } := by
  unfold cacheSoundPreview
  simp only [Bool.not_true, Bool.false_eq_true, if_false, h]

/-- A `cacheFirst` run on a key already present is a pure cache hit. -/
theorem cacheFirst_hit {cache : Cache} {req : String} {r : Resp}
    (h : lookupKey req cache = some r) (net : NetResult) :
    cacheFirst net cache req = { response := r, cache := cache, netFetches := 0 } := by
  unfold cacheFirst
  rw [h]

/-- C5: `fetchAndStore` is idempotent per key: after a first call that
resolved as stored (`"cached"`), a second call for the same key issues no
network fetch, returns `"already"`, and leaves the tier unchanged — and
the service-worker `cacheFirst` strategy behaves the same way after it
stores a response. -/
theorem c5_fetchAndStore_idempotent (ca : Bool) (net1 net2 : NetResult)
    (cache : Cache) (url : String)
    (h : (cacheSoundPreview ca net1 cache url).result = .ok .cached) :
    cacheSoundPreview true net2 (cacheSoundPreview ca net1 cache url).cache url =
      { result := .ok .already, cache := (cacheSoundPreview ca net1 cache url).cache,
        netFetches := 0 } ∧
    (∀ req (fresh : Resp), lookupKey req cache = none → fresh.isOk = true →
      cacheFirst net2 (cacheFirst (.success fresh) cache req).cache req =
        { response := fresh, cache := (cacheFirst (.success fresh) cache req).cache,
          netFetches := 0 }) := by
  constructor
  · obtain ⟨res, -, -, -, hcache⟩ := cacheSoundPreview_cached_characterize h
    rw [hcache]
    exact cacheSoundPreview_hit (by rw [lookupKey_cons, if_pos rfl]) net2
  · intro req fresh hmiss hok
    have hstore : (cacheFirst (.success fresh) cache req).cache = (req, fresh) :: cache := by
      simp [cacheFirst, hmiss, hok]
    rw [hstore]
    exact cacheFirst_hit (by rw [lookupKey_cons, if_pos rfl]) net2

/-- Witness for C5: first call stores, second call is a no-fetch hit. -/
theorem c5_witness :
    (cacheSoundPreview true (.success { status := 200, body := "audio" }) []
        "/api/sound/42/preview").result = Except.ok CSPResult.cached ∧
    (cacheSoundPreview true NetResult.failure
        (cacheSoundPreview true (.success { status := 200, body := "audio" }) []
          "/api/sound/42/preview").cache "/api/sound/42/preview" =
      { result := .ok .already,
        cache := (cacheSoundPreview true (.success { status := 200, body := "audio" }) []
          "/api/sound/42/preview").cache,
        netFetches := 0 } ∧
     (∀ req (fresh : Resp), lookupKey req ([] : Cache) = none → fresh.isOk = true →
      cacheFirst NetResult.failure (cacheFirst (.success fresh) [] req).cache req =
        { response := fresh, cache := (cacheFirst (.success fresh) [] req).cache,
          netFetches := 0 })) :=
  ⟨rfl,
   c5_fetchAndStore_idempotent true (.success { status := 200, body := "audio" })
     NetResult.failure [] "/api/sound/42/preview" rfl⟩

/-- C6: every same-origin preview-class request is routed to the
cache-first strategy on the preview tier; a hit returns the cached response
with zero network fetches; a miss fetches, stores a copy before returning
exactly when the status indicates success, and returns the upstream
response itself (even a failing one); a network failure with no cached copy
returns the locally built synthetic unavailable response (status 503, fixed
body), not an upstream response. -/
theorem c6_preview_cache_first (sameOrigin : Bool) (path : String)
    (net : NetResult) (cache : Cache)
    (hso : sameOrigin = true) (hprev : isPreviewPath path = true) :
    routeFetch sameOrigin path = .cacheFirstOn PREVIEW_CACHE ∧
    (∀ r : Resp, lookupKey path cache = some r →
      cacheFirst net cache path = { response := r, cache := cache, netFetches := 0 }) ∧
    (∀ fresh : Resp, lookupKey path cache = none → net = .success fresh →
      cacheFirst net cache path =
        { response := fresh,
          cache := if fresh.isOk then (path, fresh) :: cache else cache,
          netFetches := 1 }) ∧
    (lookupKey path cache = none → net = .failure →
      cacheFirst net cache path =
        { response := offlineResponse, cache := cache, netFetches := 1 }) ∧
    offlineResponse = { status := 503, body := "Offline and not cached" } := by
  refine ⟨?_, ?_, ?_, ?_, rfl⟩
  · subst hso
    unfold routeFetch
    simp [hprev]
  · intro r hr
    exact cacheFirst_hit hr net
  · rintro fresh hmiss rfl
    by_cases hok : fresh.isOk
    · simp [cacheFirst, hmiss, hok]
    · simp [cacheFirst, hmiss, hok]
  · rintro hmiss rfl
    simp [cacheFirst, hmiss]

/-- Witness for C6 on the concrete preview path with an empty tier. -/
theorem c6_witness :
    (true = true ∧ isPreviewPath "/api/sound/42/preview" = true) ∧
    (routeFetch true "/api/sound/42/preview" = .cacheFirstOn PREVIEW_CACHE ∧
     (∀ r : Resp, lookupKey "/api/sound/42/preview" ([] : Cache) = some r →
       cacheFirst NetResult.failure [] "/api/sound/42/preview" =
         { response := r, cache := [], netFetches := 0 }) ∧
     (∀ fresh : Resp, lookupKey "/api/sound/42/preview" ([] : Cache) = none →
       NetResult.failure = .success fresh →
       cacheFirst NetResult.failure [] "/api/sound/42/preview" =
         { response := fresh,
           cache := if fresh.isOk then ("/api/sound/42/preview", fresh) :: [] else [],
           netFetches := 1 }) ∧
     (lookupKey "/api/sound/42/preview" ([] : Cache) = none →
       NetResult.failure = NetResult.failure →
       cacheFirst NetResult.failure [] "/api/sound/42/preview" =
         { response := offlineResponse, cache := [], netFetches := 1 }) ∧
     offlineResponse = { status := 503, body := "Offline and not cached" }) :=
  ⟨⟨rfl, by decide⟩,
   c6_preview_cache_first true "/api/sound/42/preview" NetResult.failure []
     rfl (by decide)⟩

/-- C7 counterexample: with the cache capability absent, `cacheSoundPreview`
returns its not-supported sentinel immediately and issues zero network
fetches, where the claim says it would still perform the network fetch. -/
theorem c7_counterexample :
    (cacheSoundPreview false (.success { status := 200, body := "audio" }) []
        "/api/sound/42/preview").netFetches = 0 ∧
    (cacheSoundPreview false (.success { status := 200, body := "audio" }) []
        "/api/sound/42/preview").netFetches ≠ 1 := by
  exact ⟨rfl, by decide⟩

/-- C7 (amended): when the cache capability is absent, `isCached` fails
soft by returning false and `cacheSoundPreview` returns its not-supported
sentinel without throwing, without touching the network, and without
modifying the store — degradation, never fatal, but no pass-through fetch
is performed by it. -/
theorem c7_amended_storage_unavailable (cache : Cache) (url : String) (net : NetResult) :
    isCached false cache url = false ∧
    cacheSoundPreview false net cache url =
      { result := .ok .notSupported, cache := cache, netFetches := 0 } :=
  ⟨rfl, rfl⟩

end Soundboard
